import Mathlib

/-!
Verification of the knowledge-base core (`knowledge_base.py`) of the
aiot_project repository: a fact store with semantic search.

Shallow embedding conventions:
* A Python fact dict is modelled by `Fact`.  The code distinguishes a key
  that is absent from a key that is present with value `None`
  (`dict.get(k, default)` only falls back when the key is absent), so each
  optional field is `Option (Option String)`: `none` means the key is
  absent, `some none` means the key is present with value `None`,
  `some (some s)` means the key is present with string value `s`.
* Embedding vectors are `List Rat`.  The sentence-transformer model and
  torch's cosine similarity are external numeric collaborators; they are
  passed in as explicit function parameters `encode : String → Vec` and
  `cos : Vec → Vec → Rat`, so every theorem quantifies over all possible
  collaborators.
* File-system effects are modelled as explicit traces of `FsOp` values and
  file contents as `FileContent` values; `json.dump`/`json.load` is a
  faithful codec on the documents this program writes, so a well-formed
  document is modelled directly by the optional fact list stored under its
  top-level key.
* `torch.topk(similarities, k)` returns the `k` largest values in
  descending order together with their indices; ties are modelled as
  resolved in favour of the earlier index (stable selection), which is the
  deterministic reading used throughout the program's documentation.
-/

namespace KB

/-- An embedding vector (one row of the embedding matrix). -/
abbrev Vec := List Rat

/-- A fact record, i.e. the Python dict built by `add_fact` or read from the
backing JSON file.  `text` is required (the code indexes `fact['text']`
unconditionally when embedding); the other keys may be absent (`none`),
present with `None` (`some none`), or present with a string. -/
structure Fact where
  text : String
  source : Option (Option String) := none
  url : Option (Option String) := none
  stance : Option (Option String) := none
  category : Option (Option String) := none
deriving DecidableEq

instance : Inhabited Fact := ⟨{ text := "" }⟩

/-- The mutable state of a `KnowledgeBase` instance: the path of the backing
file, the ordered fact sequence `self.facts`, and the embedding matrix
`self.embeddings` (`none` models Python `None`). -/
structure KBState where
  kb_path : String
  facts : List Fact
  embeddings : Option (List Vec)
deriving DecidableEq

/-- The state built by `__init__` just before it calls
`load_knowledge_base`: empty fact list, `embeddings = None`. -/
def initState (path : String) : KBState :=
  { kb_path := path, facts := [], embeddings := none }

/-- Content of the backing file as seen by `load_knowledge_base`:
the file may be missing, may fail to parse (malformed JSON), or parses to a
document whose optional top-level fact list is `data.get('facts', [])`
(`none` = the key is absent). -/
inductive FileContent where
  | missing : FileContent
  | malformed : FileContent
  | wellFormed (data : Option (List Fact)) : FileContent
deriving DecidableEq

/-- Errors surfaced by the store.  A malformed backing file raises a JSON
decode error out of `load_knowledge_base`; the spec calls it `FormatError`. -/
inductive KBError where
  | formatError : KBError
deriving DecidableEq

/-- A file-system operation performed by the store.  `write p c` models
opening `p` for writing and dumping document `c` into it in one step;
`rename` is listed so that the absence of a write-temp-then-rename pattern
in a trace is expressible. -/
inductive FsOp where
  | write (path : String) (content : FileContent) : FsOp
  | rename (src : String) (dst : String) : FsOp
deriving DecidableEq

/-- Whether a file-system operation is a rename. -/
def FsOp.isRename : FsOp → Bool
  | .rename _ _ => true
  | .write _ _ => false

/-- Model of `load_knowledge_base` (lines 30-53).  Reads the file at `kb_path`:
missing file prints a warning and resets to the empty store; a parse error
propagates (the state is not replaced); otherwise `facts` becomes
`data.get('facts', [])` and, only when that list is non-empty, the
embedding matrix is recomputed by one batched `encode` call over the fact
texts in order (an empty list leaves `self.embeddings` untouched). -/
def load_knowledge_base (encode : String → Vec) (file : FileContent)
    (st : KBState) : Except KBError KBState :=
  match file with
  | .missing => .ok { st with facts := [], embeddings := none }
  | .malformed => .error .formatError
  | .wellFormed data =>
      let facts := data.getD []
      if facts.isEmpty then
        .ok { st with facts := facts }
      else
        .ok { st with facts := facts,
                      embeddings := some ((facts.map (·.text)).map encode) }

/-- A search result: `self.facts[idx].copy()` enriched with the key
`'similarity_score'`.  Modelled as a separate record so that stored facts
never carry a similarity field. -/
structure SearchResult where
  fact : Fact
  similarity_score : Rat
deriving DecidableEq

/-- Ranking of indices used to model `torch.topk`: `i` ranks at least as
high as `j` when its similarity is strictly larger, or the similarities are
equal and `i` is the earlier (or same) index. -/
def rankLe (sims : List Rat) (i j : Nat) : Prop :=
  sims.getD j 0 < sims.getD i 0 ∨ (sims.getD i 0 = sims.getD j 0 ∧ i ≤ j)

instance rankLeDec (sims : List Rat) : DecidableRel (rankLe sims) := fun i j =>
  inferInstanceAs (Decidable
    (sims.getD j 0 < sims.getD i 0 ∨ (sims.getD i 0 = sims.getD j 0 ∧ i ≤ j)))

/-- Strict version of `rankLe`: strictly higher similarity, or equal
similarity at a strictly earlier index. -/
def rankLt (sims : List Rat) (i j : Nat) : Prop :=
  sims.getD j 0 < sims.getD i 0 ∨ (sims.getD i 0 = sims.getD j 0 ∧ i < j)

/-- Indices returned by `torch.topk(similarities, k)`: the `k`
highest-similarity indices in descending similarity order, ties resolved in
favour of the earlier index. -/
def topkIndices (sims : List Rat) (k : Nat) : List Nat :=
  ((List.range sims.length).insertionSort (rankLe sims)).take k

/-- Everything observable about one `search` call: the store afterwards
(`search` never assigns to `self.facts` or `self.embeddings`, and copies
each returned dict), the returned result list, and the texts passed to the
embedding model during the call. -/
structure SearchOut where
  state : KBState
  results : List SearchResult
  encodeCalls : List String
deriving DecidableEq

/-- Model of `search` (lines 55-93).  If the store has no facts or no embedding
matrix it returns `[]` at once, without calling the embedding model.
Otherwise it encodes the query, computes the cosine similarity of the query
vector against every row, takes the top `min(top_k, len(self.facts))`
scored indices, and keeps, in ranking order, a copy of each fact whose
score is at least `threshold`, with the score attached. -/
def search (cos : Vec → Vec → Rat) (encode : String → Vec) (st : KBState)
    (query : String) (top_k : Nat) (threshold : Rat) : SearchOut :=
  if st.facts.isEmpty || st.embeddings.isNone then
    { state := st, results := [], encodeCalls := [] }
  else
    let query_embedding := encode query
    let similarities := (st.embeddings.getD []).map (fun v => cos query_embedding v)
    let idxs := topkIndices similarities (min top_k st.facts.length)
    let results := idxs.filterMap (fun i =>
      if threshold ≤ similarities.getD i 0 then
        some { fact := st.facts.getD i default,
               similarity_score := similarities.getD i 0 }
      else none)
    { state := st, results := results, encodeCalls := [query] }

/-- One entry of a `categorize_facts` bucket (the `fact_data` dict,
lines 115-122).  `source_name` is `fact.get('source', 'Knowledge Base')`,
so it is `None` when the key is present with value `None`. -/
structure FactData where
  text : String
  source_type : String
  source_name : Option String
  url : Option String
  similarity : Rat
  icon : String
deriving DecidableEq

/-- Builds the `fact_data` dict from one search result. -/
def mkFactData (r : SearchResult) : FactData :=
  { text := r.fact.text
    source_type := "database"
    source_name := r.fact.source.getD (some "Knowledge Base")
    url := r.fact.url.getD none
    similarity := r.similarity_score
    icon := "📊" }

/-- The two buckets returned by `categorize_facts`. -/
structure Buckets where
  supporting : List FactData
  contradicting : List FactData
deriving DecidableEq

/-- The partition loop of `categorize_facts` (lines 108-131): each result's
`stance` is `fact.get('stance', 'neutral')`; `'supporting'` and anything
other than `'contradicting'` (including `'neutral'`, an unrecognized value,
or a present-but-`None` stance) is appended to `supporting`, and
`'contradicting'` to `contradicting`, in result order. -/
def categorizeStep (acc : Buckets) (r : SearchResult) : Buckets :=
  let stance := r.fact.stance.getD (some "neutral")
  let fact_data := mkFactData r
  if stance = some "supporting" then
    { acc with supporting := acc.supporting ++ [fact_data] }
  else if stance = some "contradicting" then
    { acc with contradicting := acc.contradicting ++ [fact_data] }
  else
    { acc with supporting := acc.supporting ++ [fact_data] }

/-- The whole partition loop, started from two empty buckets. -/
def categorizeLoop (results : List SearchResult) : Buckets :=
  results.foldl categorizeStep { supporting := [], contradicting := [] }

/-- Model of `categorize_facts` (lines 95-135).  Takes only `query` and `top_k`; the
threshold of the underlying `search` call is fixed at `0.3` in the code
(written `Rat.divInt 3 10` so that it evaluates inside the kernel). -/
def categorize_facts (cos : Vec → Vec → Rat) (encode : String → Vec)
    (st : KBState) (query : String) (top_k : Nat) : Buckets :=
  categorizeLoop (search cos encode st query top_k (Rat.divInt 3 10)).results

/-- Model of `save_knowledge_base` (lines 162-166): one direct `open(kb_path, 'w')`
followed by `json.dump({'facts': self.facts}, f)`.  The trace is a single
write of the well-formed document to the store's path. -/
def save_knowledge_base (st : KBState) : List FsOp :=
  [FsOp.write st.kb_path (FileContent.wellFormed (some st.facts))]

/-- Everything observable about one `add_fact` call: the store afterwards,
the batched texts passed to the embedding model, and the file operations
performed. -/
structure AddOut where
  state : KBState
  encodeCalls : List (List String)
  fileOps : List FsOp
deriving DecidableEq

/-- Model of `add_fact` (lines 137-160).  Builds the fact dict with every key
present (Python defaults: `source=None`, `url=None`, `stance='neutral'`,
`category=None`), appends it, recomputes the embedding matrix over the full
fact-text list (the `if self.facts:` guard is always true after the
append), and saves.  There is no validation of `text` or `stance`. -/
def add_fact (encode : String → Vec) (st : KBState) (text : String)
    (source : Option String := none) (url : Option String := none)
    (stance : String := "neutral") (category : Option String := none) :
    AddOut :=
  let fact : Fact :=
    { text := text, source := some source, url := some url,
      stance := some (some stance), category := some category }
  let facts := st.facts ++ [fact]
  let fact_texts := facts.map (·.text)
  let st' : KBState :=
    { st with facts := facts, embeddings := some (fact_texts.map encode) }
  { state := st', encodeCalls := [fact_texts], fileOps := save_knowledge_base st' }

/-- The lockstep invariant of the store: the embedding matrix (an absent
matrix counts as zero rows) is exactly the `encode` image of the fact texts
in order, so in particular `len(facts) == rows(embeddings)`. -/
def Consistent (encode : String → Vec) (st : KBState) : Prop :=
  st.embeddings.getD [] = st.facts.map (fun f => encode f.text)

instance ConsistentDec (encode : String → Vec) (st : KBState) :
    Decidable (Consistent encode st) :=
  inferInstanceAs
    (Decidable (st.embeddings.getD [] = st.facts.map (fun f => encode f.text)))

/-- Example embedding collaborator mapping every text to the vector `[1]`. -/
def encodeConst : String → Vec := fun _ => [1]

/-- Example embedding collaborator mapping every text to `[1/2]`. -/
def encodeHalf : String → Vec := fun _ => [1 / 2]

/-- Example embedding collaborator mapping a text to its length. -/
def encodeLen : String → Vec := fun s => [(s.length : Rat)]

/-- Example similarity collaborator: first coordinate of the row vector. -/
def cosHead : Vec → Vec → Rat := fun _ v => v.getD 0 0

/-- Concrete store with three facts, consistent with `encodeLen`; rows 0
and 2 have equal similarity under `cosHead`, exercising tie-breaking. -/
def lenStore : KBState :=
  { kb_path := "kb.json",
    facts := [{ text := "abc" }, { text := "ab" }, { text := "abc" }],
    embeddings := some [[3], [2], [3]] }

/-- Concrete one-fact store, consistent with `encodeHalf`; the single
similarity under `cosHead` is `1/2`. -/
def halfStore : KBState :=
  { kb_path := "kb.json",
    facts := [{ text := "A" }],
    embeddings := some [[1 / 2]] }

/-- Concrete empty store. -/
def emptyStore : KBState :=
  { kb_path := "kb.json", facts := [], embeddings := none }

/-- Concrete one-fact store, consistent with `encodeConst`; the single
similarity under `cosHead` is `1`. -/
def oneStore : KBState :=
  { kb_path := "kb.json",
    facts := [{ text := "A" }],
    embeddings := some [[1]] }

/-- C6: for every store with `size() == 0` and every query, `top_k` and
threshold, `search` returns an empty sequence and never invokes the
embedding collaborator. -/
theorem search_empty_store (cos : Vec → Vec → Rat) (encode : String → Vec)
    (st : KBState) (query : String) (top_k : Nat) (threshold : Rat)
    (h : st.facts = []) :
    (search cos encode st query top_k threshold).results = [] ∧
    (search cos encode st query top_k threshold).encodeCalls = [] := by
  simp [search, h]

/-- Witness instantiating `search_empty_store` at the concrete empty
store. -/
theorem search_empty_store_witness :
    (search cosHead encodeConst emptyStore "q" 3 (3 / 10)).results = [] ∧
    (search cosHead encodeConst emptyStore "q" 3 (3 / 10)).encodeCalls = [] :=
  search_empty_store cosHead encodeConst emptyStore "q" 3 (3 / 10) rfl

/-- C7: loading a missing file yields an empty store (not an error);
loading a well-formed document with no top-level fact list also yields an
empty store; loading a malformed file fails with `FormatError` and does not
produce a replacement state (the store is not silently emptied). -/
theorem load_error_handling (encode : String → Vec) (st : KBState) :
    (∃ st', load_knowledge_base encode .missing st = .ok st' ∧ st'.facts = []) ∧
    (∃ st', load_knowledge_base encode (.wellFormed none) st = .ok st' ∧
      st'.facts = []) ∧
    load_knowledge_base encode .malformed st = .error .formatError := by
  exact ⟨⟨{ st with facts := [], embeddings := none }, rfl, rfl⟩,
    ⟨{ st with facts := [] }, rfl, rfl⟩, rfl⟩

/-- C10: `add_fact` does not validate `stance`: for every string `s` (and
every text, source, url, category) the call succeeds, appends a fact whose
stance key holds `s` verbatim, and persists that fact verbatim. -/
theorem add_fact_stance_unvalidated (encode : String → Vec) (st : KBState)
    (text : String) (src url : Option String) (s : String)
    (cat : Option String) :
    (add_fact encode st text src url s cat).state.facts =
      st.facts ++ [{ text := text, source := some src, url := some url,
                     stance := some (some s), category := some cat }] ∧
    (add_fact encode st text src url s cat).fileOps =
      [FsOp.write st.kb_path (FileContent.wellFormed (some
        (st.facts ++ [{ text := text, source := some src, url := some url,
                        stance := some (some s), category := some cat }])))] :=
  ⟨rfl, rfl⟩

/-- C5: `save` writes only the fact sequence (no embeddings are persisted),
and loading the saved document into a fresh store yields the same fact
sequence field-for-field in the same order, with the embedding matrix
recomputed from the fact texts. -/
theorem save_load_roundtrip (encode : String → Vec) (st : KBState)
    (p : String) :
    save_knowledge_base st =
      [FsOp.write st.kb_path (FileContent.wellFormed (some st.facts))] ∧
    ∃ st', load_knowledge_base encode (FileContent.wellFormed (some st.facts))
        (initState p) = .ok st' ∧
      st'.facts = st.facts ∧ Consistent encode st' := by
  refine ⟨rfl, ?_⟩
  by_cases h : st.facts.isEmpty
  · refine ⟨{ initState p with facts := st.facts }, ?_, rfl, ?_⟩
    · simp [load_knowledge_base, h]
    · simp [Consistent, initState, List.isEmpty_iff.mp h]
  · refine ⟨{ kb_path := p, facts := st.facts,
              embeddings := some ((st.facts.map (·.text)).map encode) },
      ?_, rfl, ?_⟩
    · simp [load_knowledge_base, h, initState]
    · simp [Consistent, List.map_map, Function.comp]

/-- C2 counterexample: `add_fact` on the empty text does not leave the
store unchanged with no file write — it mutates the store and writes the
file (there is no validation in the code). -/
theorem add_empty_text_cex :
    ¬ ((add_fact encodeConst (initState "kb.json") "").state =
          initState "kb.json" ∧
       (add_fact encodeConst (initState "kb.json") "").fileOps = []) := by
  decide

/-- C2 amended: for every text that is empty or whitespace-only, `add_fact`
succeeds without any validation, appending a fact carrying that text
verbatim (`size()` grows by exactly 1) and performing a file write. -/
theorem add_fact_empty_text_appends (encode : String → Vec) (st : KBState)
    (text : String) (_h : text.data.all Char.isWhitespace = true) :
    (add_fact encode st text).state.facts.length = st.facts.length + 1 ∧
    (add_fact encode st text).state.facts.getLast? =
      some { text := text, source := some none, url := some none,
             stance := some (some "neutral"), category := some none } ∧
    (add_fact encode st text).fileOps ≠ [] := by
  refine ⟨by simp [add_fact], ?_, by simp [add_fact, save_knowledge_base]⟩
  simp [add_fact]

/-- Witness instantiating `add_fact_empty_text_appends` at a
whitespace-only text. -/
theorem add_fact_empty_text_appends_witness :
    "   ".data.all Char.isWhitespace = true ∧
    ((add_fact encodeConst emptyStore "   ").state.facts.length =
        emptyStore.facts.length + 1 ∧
     (add_fact encodeConst emptyStore "   ").state.facts.getLast? =
       some { text := "   ", source := some none, url := some none,
              stance := some (some "neutral"), category := some none } ∧
     (add_fact encodeConst emptyStore "   ").fileOps ≠ []) :=
  ⟨by decide, add_fact_empty_text_appends encodeConst emptyStore "   " (by decide)⟩

/-- C8 counterexample: a successful `add_fact` performs exactly one file
operation, a direct write of the document to the store's path; no temporary
file is written and no rename occurs. -/
theorem add_fact_not_atomic_cex :
    (add_fact encodeConst (initState "kb.json") "hello").fileOps =
      [FsOp.write "kb.json" (FileContent.wellFormed (some
        [{ text := "hello", source := some none, url := some none,
           stance := some (some "neutral"), category := some none }]))] ∧
    (add_fact encodeConst (initState "kb.json") "hello").fileOps.length = 1 ∧
    ((add_fact encodeConst (initState "kb.json") "hello").fileOps.any
        FsOp.isRename) = false := by
  decide

/-- C8 amended: every successful `add_fact` persists by a single direct
overwrite of the file at the store's path (open for write and dump); the
trace contains no rename, so no write-temp-then-rename atomicity is
provided. -/
theorem add_fact_persists_direct_write (encode : String → Vec) (st : KBState)
    (text : String) (src url : Option String) (s : String)
    (cat : Option String) :
    (add_fact encode st text src url s cat).fileOps =
      save_knowledge_base (add_fact encode st text src url s cat).state ∧
    (add_fact encode st text src url s cat).fileOps =
      [FsOp.write st.kb_path (FileContent.wellFormed (some
        (add_fact encode st text src url s cat).state.facts))] ∧
    ((add_fact encode st text src url s cat).fileOps.any FsOp.isRename)
      = false :=
  ⟨rfl, rfl, rfl⟩

/-- Rows of a consistent store match its fact count. -/
theorem Consistent.length_eq {encode : String → Vec} {st : KBState}
    (h : Consistent encode st) :
    (st.embeddings.getD []).length = st.facts.length := by
  rw [h, List.length_map]

/-- C3: after a successful `load_knowledge_base` from the construction-time
state (`self.embeddings = None`, as set by `__init__` before loading), and
after every `add_fact`, the embedding matrix has exactly one row per fact,
each row being `encode` of the corresponding fact text; `add_fact` grows
`size()` by exactly 1. -/
theorem store_invariant (encode : String → Vec) :
    (∀ (st st' : KBState) (file : FileContent), st.embeddings = none →
       load_knowledge_base encode file st = .ok st' →
       Consistent encode st' ∧
       (st'.embeddings.getD []).length = st'.facts.length) ∧
    (∀ (st : KBState) (text : String) (src url : Option String)
       (s : String) (cat : Option String),
       (add_fact encode st text src url s cat).state.facts.length =
         st.facts.length + 1 ∧
       Consistent encode (add_fact encode st text src url s cat).state) := by
  constructor
  · intro st st' file hemb hld
    suffices h : Consistent encode st' from ⟨h, h.length_eq⟩
    cases file with
    | missing =>
        simp only [load_knowledge_base, Except.ok.injEq] at hld
        subst hld; simp [Consistent]
    | malformed => exact absurd hld (by simp [load_knowledge_base])
    | wellFormed data =>
        by_cases h : (data.getD []).isEmpty
        · simp only [load_knowledge_base, h, if_pos, Except.ok.injEq] at hld
          subst hld
          simp [Consistent, hemb, List.isEmpty_iff.mp h]
        · simp only [load_knowledge_base, h, if_neg, Except.ok.injEq,
            Bool.false_eq_true, not_false_eq_true] at hld
          subst hld
          simp [Consistent, List.map_map, Function.comp]
  · intro st text src url s cat
    constructor
    · simp [add_fact]
    · simp [Consistent, add_fact, List.map_map, Function.comp]

/-- Witness instantiating `store_invariant`: the load half at a concrete
three-fact document into the construction-time state, and the add half at a
concrete store. -/
theorem store_invariant_witness :
    (Consistent encodeLen
        { kb_path := "kb.json", facts := lenStore.facts,
          embeddings := some ((lenStore.facts.map (·.text)).map encodeLen) } ∧
      (({ kb_path := "kb.json", facts := lenStore.facts,
          embeddings := some ((lenStore.facts.map (·.text)).map encodeLen) } :
            KBState).embeddings.getD []).length = lenStore.facts.length) ∧
    ((add_fact encodeHalf halfStore "new" none none "neutral" none).state.facts.length =
        halfStore.facts.length + 1 ∧
      Consistent encodeHalf
        (add_fact encodeHalf halfStore "new" none none "neutral" none).state) :=
  ⟨(store_invariant encodeLen).1 (initState "kb.json") _
      (.wellFormed (some lenStore.facts)) rfl rfl,
    (store_invariant encodeHalf).2 halfStore "new" none none "neutral" none⟩

/-- The ranking is total. -/
theorem rankLe_total (sims : List Rat) (i j : Nat) :
    rankLe sims i j ∨ rankLe sims j i := by
  rcases lt_trichotomy (sims.getD i 0) (sims.getD j 0) with h | h | h
  · exact Or.inr (Or.inl h)
  · rcases Nat.le_total i j with hij | hij
    · exact Or.inl (Or.inr ⟨h, hij⟩)
    · exact Or.inr (Or.inr ⟨h.symm, hij⟩)
  · exact Or.inl (Or.inl h)

/-- The ranking is transitive. -/
theorem rankLe_trans (sims : List Rat) (a b c : Nat)
    (hab : rankLe sims a b) (hbc : rankLe sims b c) : rankLe sims a c := by
  rcases hab with h1 | ⟨e1, l1⟩ <;> rcases hbc with h2 | ⟨e2, l2⟩
  · exact Or.inl (h2.trans h1)
  · exact Or.inl (e2 ▸ h1)
  · exact Or.inl (lt_of_lt_of_le h2 e1.ge)
  · exact Or.inr ⟨e1.trans e2, l1.trans l2⟩

/-- Two distinct indices related by the ranking are strictly ranked. -/
theorem rankLt_of_rankLe_ne {sims : List Rat} {i j : Nat}
    (h : rankLe sims i j) (hne : i ≠ j) : rankLt sims i j := by
  rcases h with h | ⟨e, l⟩
  · exact Or.inl h
  · exact Or.inr ⟨e, lt_of_le_of_ne l hne⟩

/-- The index list `insertionSort` ranks over. -/
def rankedIndices (sims : List Rat) : List Nat :=
  (List.range sims.length).insertionSort (rankLe sims)

/-- The list `rankedIndices` is a permutation of `range`. -/
theorem rankedIndices_perm (sims : List Rat) :
    (rankedIndices sims).Perm (List.range sims.length) :=
  List.perm_insertionSort (rankLe sims) (List.range sims.length)

/-- The list `rankedIndices` has no duplicate indices. -/
theorem rankedIndices_nodup (sims : List Rat) : (rankedIndices sims).Nodup :=
  (rankedIndices_perm sims).nodup_iff.mpr (List.nodup_range _)

/-- The list `rankedIndices` is sorted by the ranking. -/
theorem rankedIndices_sorted (sims : List Rat) :
    (rankedIndices sims).Pairwise (rankLe sims) :=
  @List.sorted_insertionSort _ (rankLe sims) (rankLeDec sims)
    ⟨fun a b => rankLe_total sims a b⟩ ⟨fun a b c => rankLe_trans sims a b c⟩
    (List.range sims.length)

/-- The selection `topkIndices` keeps the first `k` entries of `rankedIndices`. -/
theorem topkIndices_eq_take (sims : List Rat) (k : Nat) :
    topkIndices sims k = (rankedIndices sims).take k := rfl

/-- The selection `topkIndices` selects exactly `min k n` indices. -/
theorem topkIndices_length (sims : List Rat) (k : Nat) :
    (topkIndices sims k).length = min k sims.length := by
  simp [topkIndices, List.length_insertionSort]

/-- Every selected index is a valid row index. -/
theorem mem_topkIndices_lt {sims : List Rat} {k i : Nat}
    (h : i ∈ topkIndices sims k) : i < sims.length := by
  have h1 : i ∈ rankedIndices sims :=
    List.mem_of_mem_take (by simpa [topkIndices_eq_take] using h)
  simpa using (rankedIndices_perm sims).mem_iff.mp h1

/-- The selected indices are strictly ranked: descending similarity, ties
broken by the earlier insertion index. -/
theorem topkIndices_pairwise (sims : List Rat) (k : Nat) :
    (topkIndices sims k).Pairwise (rankLt sims) := by
  have hsub : (topkIndices sims k).Sublist (rankedIndices sims) := by
    rw [topkIndices_eq_take]; exact List.take_sublist _ _
  have hp : (topkIndices sims k).Pairwise (rankLe sims) :=
    List.Pairwise.sublist hsub (rankedIndices_sorted sims)
  have hn : (topkIndices sims k).Pairwise (· ≠ ·) :=
    List.Nodup.sublist hsub (rankedIndices_nodup sims)
  exact (hp.and hn).imp fun h => rankLt_of_rankLe_ne h.1 h.2

/-- Every selected index strictly outranks every valid unselected index. -/
theorem topkIndices_max {sims : List Rat} {k j : Nat}
    (hj : j < sims.length) (hnot : j ∉ topkIndices sims k) :
    ∀ i ∈ topkIndices sims k, rankLt sims i j := by
  intro i hi
  have hsplit : (rankedIndices sims).take k ++ (rankedIndices sims).drop k =
      rankedIndices sims := List.take_append_drop k _
  have hpair : ((rankedIndices sims).take k ++
      (rankedIndices sims).drop k).Pairwise (rankLe sims) := by
    rw [hsplit]; exact rankedIndices_sorted sims
  have hjmem : j ∈ rankedIndices sims := by
    rw [(rankedIndices_perm sims).mem_iff]; simpa using hj
  have hjdrop : j ∈ (rankedIndices sims).drop k := by
    rcases (List.mem_append.mp (hsplit ▸ hjmem)) with h | h
    · exact absurd h (by simpa [topkIndices_eq_take] using hnot)
    · exact h
  have hle : rankLe sims i j :=
    ((List.pairwise_append.mp hpair).2.2) i
      (by simpa [topkIndices_eq_take] using hi) j hjdrop
  have hnd : ((rankedIndices sims).take k ++
      (rankedIndices sims).drop k).Pairwise (· ≠ ·) := by
    rw [hsplit]; exact rankedIndices_nodup sims
  have hne : i ≠ j :=
    ((List.pairwise_append.mp hnd).2.2) i
      (by simpa [topkIndices_eq_take] using hi) j hjdrop
  exact rankLt_of_rankLe_ne hle hne

/-- A `filterMap` that either keeps an annotated element or drops it is a
sublist of the fully annotated sequence (so relative order is preserved). -/
theorem filterMap_ite_sublist {α β : Type} (p : α → Prop) [DecidablePred p]
    (g : α → β) (l : List α) :
    (l.filterMap (fun a => if p a then some (g a) else none)).Sublist
      (l.map g) := by
  induction l with
  | nil => exact List.Sublist.refl _
  | cons a l ih =>
      rw [List.map_cons, List.filterMap_cons]
      by_cases h : p a
      · rw [if_pos h]; exact ih.cons₂ _
      · rw [if_neg h]; exact ih.cons _

/-- A non-empty consistent store passes the guard of `search`. -/
theorem search_guard_false {encode : String → Vec} {st : KBState}
    (hne : st.facts ≠ []) (hC : Consistent encode st) :
    (st.facts.isEmpty || st.embeddings.isNone) = false := by
  have h1 : st.facts.isEmpty = false := by simpa [List.isEmpty_iff] using hne
  have h2 : st.embeddings.isNone = false := by
    cases hemb : st.embeddings with
    | none =>
        rw [Consistent, hemb] at hC
        exact absurd hC.symm (by simpa using hne)
    | some E => rfl
  rw [h1, h2, Bool.or_self]

/-- C9: `search` never mutates the store — the fact sequence, the stored
records and the embedding matrix are identical before and after the call —
and every returned entry is a copy of a stored record (enriched with the
score in a separate result record, so no stored record gains a similarity
field). -/
theorem search_no_mutation (cos : Vec → Vec → Rat) (encode : String → Vec)
    (st : KBState) (query : String) (top_k : Nat) (threshold : Rat)
    (hC : Consistent encode st) :
    (search cos encode st query top_k threshold).state = st ∧
    ∀ r ∈ (search cos encode st query top_k threshold).results,
      ∃ i, i < st.facts.length ∧ r.fact = st.facts.getD i default := by
  constructor
  · rw [search]; split <;> rfl
  · intro r hr
    by_cases hg : (st.facts.isEmpty || st.embeddings.isNone) = true
    · simp [search, hg] at hr
    · simp only [search, hg, if_false, Bool.false_eq_true] at hr
      obtain ⟨i, hi, hf⟩ := List.mem_filterMap.mp hr
      refine ⟨i, ?_, ?_⟩
      · have hlt := mem_topkIndices_lt hi
        rwa [List.length_map, hC.length_eq] at hlt
      · split at hf
        · cases hf; rfl
        · cases hf

/-- Witness instantiating `search_no_mutation` at a concrete consistent
store. -/
theorem search_no_mutation_witness :
    (search cosHead encodeLen lenStore "q" 2 (3 / 10)).state = lenStore ∧
    ∀ r ∈ (search cosHead encodeLen lenStore "q" 2 (3 / 10)).results,
      ∃ i, i < lenStore.facts.length ∧ r.fact = lenStore.facts.getD i default :=
  search_no_mutation cosHead encodeLen lenStore "q" 2 (3 / 10) (by decide)

/-- C1: on a non-empty consistent store, `search` first selects the
`min(top_k, size)` indices with the highest similarity — a sequence of
valid indices ordered by strictly descending rank (similarity descending,
ties broken in favour of the earlier insertion index) that strictly
outranks every unselected index — and only then filters that sequence by
`threshold`, the survivors keeping their relative order (the result is a
sublist of the annotated top-k sequence); a fact outside the selected
indices never contributes a result, whatever its similarity. -/
theorem search_topk_then_filter (cos : Vec → Vec → Rat)
    (encode : String → Vec) (st : KBState) (query : String) (top_k : Nat)
    (threshold : Rat) (sims : List Rat) (T : List Nat)
    (hne : st.facts ≠ []) (hC : Consistent encode st)
    (hsims : sims = (st.embeddings.getD []).map (fun v => cos (encode query) v))
    (hT : T = topkIndices sims (min top_k st.facts.length)) :
    T.length = min top_k st.facts.length ∧
    (∀ i ∈ T, i < st.facts.length) ∧
    T.Pairwise (rankLt sims) ∧
    (∀ j < st.facts.length, j ∉ T → ∀ i ∈ T, rankLt sims i j) ∧
    (search cos encode st query top_k threshold).results =
      T.filterMap (fun i =>
        if threshold ≤ sims.getD i 0 then
          some { fact := st.facts.getD i default,
                 similarity_score := sims.getD i 0 }
        else none) ∧
    ((search cos encode st query top_k threshold).results).Sublist
      (T.map (fun i =>
        ({ fact := st.facts.getD i default,
           similarity_score := sims.getD i 0 } : SearchResult))) := by
  have hlen : sims.length = st.facts.length := by
    rw [hsims, List.length_map, hC.length_eq]
  have hg := search_guard_false hne hC
  have hres : (search cos encode st query top_k threshold).results =
      T.filterMap (fun i =>
        if threshold ≤ sims.getD i 0 then
          some { fact := st.facts.getD i default,
                 similarity_score := sims.getD i 0 }
        else none) := by
    subst hsims hT
    simp only [search, hg, if_false, Bool.false_eq_true]
  refine ⟨?_, ?_, ?_, ?_, hres, ?_⟩
  · rw [hT, topkIndices_length, hlen]; omega
  · intro i hi
    rw [hT] at hi
    have := mem_topkIndices_lt hi
    rwa [hlen] at this
  · rw [hT]; exact topkIndices_pairwise sims _
  · intro j hj hnot i hi
    rw [hT] at hnot hi
    exact topkIndices_max (by rwa [hlen]) hnot i hi
  · rw [hres]
    exact filterMap_ite_sublist _ _ T

/-- Witness instantiating `search_topk_then_filter` at a concrete
three-fact store with a similarity tie between rows 0 and 2. -/
theorem search_topk_then_filter_witness :
    ([0, 2] : List Nat).length = min 2 lenStore.facts.length ∧
    (∀ i ∈ ([0, 2] : List Nat), i < lenStore.facts.length) ∧
    ([0, 2] : List Nat).Pairwise (rankLt [3, 2, 3]) ∧
    (∀ j < lenStore.facts.length, j ∉ ([0, 2] : List Nat) →
      ∀ i ∈ ([0, 2] : List Nat), rankLt [3, 2, 3] i j) ∧
    (search cosHead encodeLen lenStore "q" 2 (3 / 10)).results =
      ([0, 2] : List Nat).filterMap (fun i =>
        if (3 / 10 : Rat) ≤ ([3, 2, 3] : List Rat).getD i 0 then
          some { fact := lenStore.facts.getD i default,
                 similarity_score := ([3, 2, 3] : List Rat).getD i 0 }
        else none) ∧
    ((search cosHead encodeLen lenStore "q" 2 (3 / 10)).results).Sublist
      (([0, 2] : List Nat).map (fun i =>
        ({ fact := lenStore.facts.getD i default,
           similarity_score := ([3, 2, 3] : List Rat).getD i 0 } :
          SearchResult))) :=
  search_topk_then_filter cosHead encodeLen lenStore "q" 2 (3 / 10)
    [3, 2, 3] [0, 2] (by decide) (by decide) (by decide) (by decide)

/-- Unrolling the partition loop: starting from any accumulator, the
supporting bucket receives every result whose stance is not
`'contradicting'` (including `'supporting'`, `'neutral'`, unrecognized
values and an absent stance key) and the contradicting bucket receives
exactly the `'contradicting'` results, both in result order. -/
theorem foldl_categorizeStep (results : List SearchResult) (acc : Buckets) :
    results.foldl categorizeStep acc =
      { supporting := acc.supporting ++ (results.filter (fun r =>
          !(r.fact.stance.getD (some "neutral") == some "contradicting"))).map
            mkFactData,
        contradicting := acc.contradicting ++ (results.filter (fun r =>
          r.fact.stance.getD (some "neutral") == some "contradicting")).map
            mkFactData } := by
  induction results generalizing acc with
  | nil => simp
  | cons r rs ih =>
      rw [List.foldl_cons, ih]
      by_cases hsup : r.fact.stance.getD (some "neutral") = some "supporting"
      · have hcon : (r.fact.stance.getD (some "neutral") ==
            some "contradicting") = false := by
          rw [hsup]; decide
        simp [categorizeStep, hsup, hcon, List.filter_cons]
      · by_cases hcon : r.fact.stance.getD (some "neutral") =
            some "contradicting"
        · have hconb : (r.fact.stance.getD (some "neutral") ==
              some "contradicting") = true := by
            rw [hcon]; decide
          simp [categorizeStep, hsup, hcon, hconb, List.filter_cons]
        · have hconb : (r.fact.stance.getD (some "neutral") ==
              some "contradicting") = false := by
            simpa using hcon
          simp [categorizeStep, hsup, hcon, hconb, List.filter_cons]

/-- C4 counterexample: `categorize_facts` takes no threshold parameter and
always searches with threshold `0.3`; on a concrete store with a similarity
of `1`, its output differs from the partition of the `search` results at
the caller-chosen threshold `2`. -/
theorem categorize_threshold_cex :
    categorize_facts cosHead encodeConst oneStore "q" 5 ≠
      categorizeLoop (search cosHead encodeConst oneStore "q" 5 2).results := by
  decide

/-- C4 amended: for every query and `top_k`, `categorize_facts` calls
`search` with those parameters and the fixed threshold `0.3`, and partitions
the results into exactly two buckets: `stance == 'contradicting'` goes to
the contradicting bucket and every other stance (supporting, neutral,
unrecognized, or absent) to the supporting bucket, order preserved; each
entry carries the fact's text, a source label falling back to
`'Knowledge Base'` when the source key is absent, the (nullable) url, the
similarity score, and the fixed `'📊'` marker. -/
theorem categorize_partition (cos : Vec → Vec → Rat) (encode : String → Vec)
    (st : KBState) (query : String) (top_k : Nat) :
    categorize_facts cos encode st query top_k =
      { supporting := ((search cos encode st query top_k
            (Rat.divInt 3 10)).results.filter
          (fun r => !(r.fact.stance.getD (some "neutral") ==
            some "contradicting"))).map mkFactData,
        contradicting := ((search cos encode st query top_k
            (Rat.divInt 3 10)).results.filter
          (fun r => r.fact.stance.getD (some "neutral") ==
            some "contradicting")).map mkFactData } ∧
    ∀ r : SearchResult,
      mkFactData r =
        { text := r.fact.text, source_type := "database",
          source_name := r.fact.source.getD (some "Knowledge Base"),
          url := r.fact.url.getD none,
          similarity := r.similarity_score, icon := "📊" } := by
  refine ⟨?_, fun r => rfl⟩
  rw [categorize_facts, categorizeLoop, foldl_categorizeStep]
  simp

end KB
